import Mathlib

/-!
Shallow embedding of `src/query.py` (PixelPick active-learning pixel-query
selector) and proofs about the claims of its specification.

Modelling conventions:
* tensors are flattened row-major `List ℚ` (or `List (List ℚ)` keeping the
  class axis per pixel, `List (List Bool)` / `List (List ℤ)` for (H, W)
  boolean masks and label maps);
* `torch.topk(...).indices` is modelled by sorting the index list by value
  (descending for `largest=True`, ascending otherwise), ties broken by the
  lower index first, and taking the first `k` — the stable behaviour of the
  sort-backed CPU implementation;
* the calls to `np.random.choice(arr, size, replace=False)` are abstracted by
  an explicit parameter `choice : List ℕ → ℕ → List ℕ`; theorems that need
  the draw to be a genuine sample state the corresponding hypotheses
  (no duplicates, membership in `arr`, length `size`);
* `torch.log`, `np.sqrt` and `torch.rand` are abstracted by parameters
  (`log : ℚ → ℚ`, `sqrt : ℚ → ℚ`, explicit random maps);
* model inference plus softmax (`F.softmax(model(x)["pred"], dim=1)`) is an
  external collaborator: its per-image output is an input of the embedding;
* fallible Python operations return `Except String`, the message identifying
  the Python exception raised.
-/

namespace PixelPick

/-- Decidable equality of `Except` results, for evaluating the embedding at
concrete inputs. -/
instance exceptDecEq {ε α : Type} [DecidableEq ε] [DecidableEq α] :
    DecidableEq (Except ε α) := fun x y =>
  match x, y with
  | Except.ok a, Except.ok b =>
      if h : a = b then Decidable.isTrue (by rw [h])
      else Decidable.isFalse (fun hc => by cases hc; exact h rfl)
  | Except.error a, Except.error b =>
      if h : a = b then Decidable.isTrue (by rw [h])
      else Decidable.isFalse (fun hc => by cases hc; exact h rfl)
  | Except.ok _, Except.error _ => Decidable.isFalse (fun hc => by cases hc)
  | Except.error _, Except.ok _ => Decidable.isFalse (fun hc => by cases hc)

/-- The four recognized strategy names (spec section 6, configuration surface). -/
def strategies : List String := ["entropy", "least_confidence", "margin_sampling", "random"]

/-- `self.query_strategy in ["entropy", "least_confidence"]` — the `largest`
argument threaded to `torch.topk` at lines 42-50 and 53-55 of `query.py`. -/
def isLargest (s : String) : Bool := decide (s ∈ ["entropy", "least_confidence"])

/-- The value written over non-selectable pixels: `0.0` for the two
largest-is-worse strategies and `1.0` otherwise (lines 42-45 and 107-108). -/
def maskValue (s : String) : ℚ := if isLargest s then 0 else 1

/-- `UncertaintySampler._entropy`: `(-prob * torch.log(prob)).sum(dim=1)`,
per pixel over the class axis; `torch.log` abstracted as `log`. -/
def entropy_map (log : ℚ → ℚ) (prob : List (List ℚ)) : List ℚ :=
  prob.map (fun ps => (ps.map (fun p => -p * log p)).sum)

/-- Maximum of a class-probability list (`prob.max(dim=1)[0]`); `torch.max`
over a nonempty axis — the `0` default is never reached for `C ≥ 1`. -/
def listMax (ps : List ℚ) : ℚ := ps.foldr max 0

/-- `UncertaintySampler._least_confidence`: `1.0 - prob.max(dim=1)[0]`. -/
def least_confidence_map (prob : List (List ℚ)) : List ℚ :=
  prob.map (fun ps => 1 - listMax ps)

/-- `UncertaintySampler._margin_sampling`: `prob.topk(k=2, dim=1)` and
`(top2[:,0] - top2[:,1]).abs()`; the `0` fallback needs `C < 2`, which
`topk(k=2)` would reject anyway. -/
def margin_score (ps : List ℚ) : ℚ :=
  match List.insertionSort (fun a b => b ≤ a) ps with
  | a :: b :: _ => |a - b|
  | _ => 0

def margin_sampling_map (prob : List (List ℚ)) : List ℚ :=
  prob.map margin_score

/-- Result of calling the sampler: an uncertainty tensor, the Python value
`None` (`getattr` dispatch can produce it, see `sampler_call`), or some
other Python value (`NotImplemented`, a freshly constructed instance, ...)
tagged by a description — produced only by the abstracted inherited
attributes. -/
inductive SamplerResult where
  | map : List ℚ → SamplerResult
  | pyNone : SamplerResult
  | pyObject : String → SamplerResult
deriving DecidableEq

/-- The attribute names resolvable on an `UncertaintySampler` instance, so
exactly the names on which `getattr(self, ...)` succeeds: the instance
attribute assigned in `__init__` (line 130), the methods of the class body
(lines 128-151) with the implicit class attributes `__module__`, `__dict__`,
`__weakref__`, `__doc__`, and the attributes inherited from `object`
(CPython of the era of this code, which still has `np.bool`: 3.10 and
earlier, where `object` does not yet provide `__getstate__`). -/
def samplerAttrs : List String :=
  ["query_strategy",
   "_entropy", "_least_confidence", "_margin_sampling", "_random",
   "__init__", "__call__", "__module__", "__dict__", "__weakref__", "__doc__",
   "__class__", "__delattr__", "__dir__", "__eq__", "__format__", "__ge__",
   "__getattribute__", "__gt__", "__hash__", "__init_subclass__", "__le__",
   "__lt__", "__ne__", "__new__", "__reduce__", "__reduce_ex__", "__repr__",
   "__setattr__", "__sizeof__", "__str__", "__subclasshook__"]

/-- `UncertaintySampler.__call__`:
`return getattr(self, f"_{self.query_strategy}")(prob)` (line 151).

Attribute lookup prefixes an underscore, so the four recognized strategies
resolve to the scoring methods `_entropy`, `_least_confidence`,
`_margin_sampling`, `_random` (`torch.rand` of `_random` is abstracted as
the input `randMap`).  The lookup walks the whole attribute namespace of
the instance, so other names can collide with existing attributes:
`query_strategy = "_init__"` resolves the class method `__init__`, which
runs on `prob` and returns `None` without raising; `"_call__"` resolves
`__call__`, which self-recurses until `RecursionError`; any other name
whose underscore-prefixed form is an attribute resolves an attribute
inherited from `object` (or an implicit class attribute), and calling that
on `prob` yields whatever that attribute yields — `"_eq__"` returns
`NotImplemented`, `"_class__"` constructs a new sampler, `"_sizeof__"`
raises `TypeError` — Python object machinery outside this file, abstracted
as the parameter `objectCall` applied to the resolved attribute name.
Only a name that is no attribute at all raises `AttributeError`. -/
def sampler_call (objectCall : String → Except String SamplerResult)
    (log : ℚ → ℚ) (randMap : List ℚ) (query_strategy : String)
    (prob : List (List ℚ)) : Except String SamplerResult :=
  if query_strategy = "entropy" then Except.ok (SamplerResult.map (entropy_map log prob))
  else if query_strategy = "least_confidence" then
    Except.ok (SamplerResult.map (least_confidence_map prob))
  else if query_strategy = "margin_sampling" then
    Except.ok (SamplerResult.map (margin_sampling_map prob))
  else if query_strategy = "random" then Except.ok (SamplerResult.map randMap)
  else if query_strategy = "_init__" then Except.ok SamplerResult.pyNone
  else if query_strategy = "_call__" then
    Except.error ("RecursionError: maximum recursion depth exceeded")
  else if ("_" ++ query_strategy) ∈ samplerAttrs then objectCall ("_" ++ query_strategy)
  else
    Except.error ("AttributeError: UncertaintySampler object has no attribute _" ++ query_strategy)

/-- Python `int(...)` on a float: truncation toward zero. -/
def pyInt (q : ℚ) : ℤ := if 0 ≤ q then ⌊q⌋ else -⌊-q⌋

/-- Line 33: `k = int(h * w * self.top_n_percent) if self.top_n_percent > 0.
else self.n_pixels_by_us`. -/
def select_k (top_n_percent : ℚ) (n_pixels_by_us h w : ℕ) : ℕ :=
  if 0 < top_n_percent then (pyInt ((h : ℚ) * w * top_n_percent)).toNat else n_pixels_by_us

/-- Comparison used to model `torch.topk`: order indices by value (descending
when `largest`), ties by lower index. -/
def topkRel (xs : List ℚ) (largest : Bool) (i j : ℕ) : Prop :=
  if xs.getD i 0 = xs.getD j 0 then i ≤ j
  else if largest then xs.getD j 0 < xs.getD i 0
  else xs.getD i 0 < xs.getD j 0

instance topkRelDecidable (xs : List ℚ) (largest : Bool) :
    DecidableRel (topkRel xs largest) := fun i j => by
  unfold topkRel
  split
  · exact inferInstance
  · split <;> exact inferInstance

/-- `torch.topk(uc_map, k, dim=0, largest=...).indices` on a flattened map. -/
def topkIndices (xs : List ℚ) (k : ℕ) (largest : Bool) : List ℕ :=
  (List.insertionSort (topkRel xs largest) (List.range xs.length)).take k

/-- `valBefore largest a b`: the score `a` strictly beats the score `b` in
the top-k direction of the strategy (`b < a` when the strategy takes the
largest values, `a < b` otherwise). -/
def valBefore (largest : Bool) (a b : ℚ) : Prop :=
  if largest then b < a else a < b

instance valBeforeDecidable (largest : Bool) (a b : ℚ) : Decidable (valBefore largest a b) := by
  unfold valBefore
  split <;> exact inferInstance

instance topkRelTransInst (xs : List ℚ) (largest : Bool) : IsTrans ℕ (topkRel xs largest) := by
  constructor
  intro a b c hab hbc
  unfold topkRel at hab hbc ⊢
  by_cases h1 : xs.getD a 0 = xs.getD b 0 <;> by_cases h2 : xs.getD b 0 = xs.getD c 0
  · rw [if_pos h1] at hab
    rw [if_pos h2] at hbc
    rw [if_pos (h1.trans h2)]
    omega
  · rw [if_neg h2] at hbc
    rw [h1, if_neg h2]
    exact hbc
  · rw [if_neg h1] at hab
    rw [← h2, if_neg h1]
    exact hab
  · rw [if_neg h1] at hab
    rw [if_neg h2] at hbc
    cases largest
    · rw [if_neg Bool.false_ne_true] at hab hbc
      by_cases h3 : xs.getD a 0 = xs.getD c 0
      · exfalso
        rw [h3] at hab
        exact absurd (hab.trans hbc) (lt_irrefl _)
      · rw [if_neg h3, if_neg Bool.false_ne_true]
        exact hab.trans hbc
    · rw [if_pos rfl] at hab hbc
      by_cases h3 : xs.getD a 0 = xs.getD c 0
      · exfalso
        rw [h3] at hab
        exact absurd (hbc.trans hab) (lt_irrefl _)
      · rw [if_neg h3, if_pos rfl]
        exact hbc.trans hab

instance topkRelTotalInst (xs : List ℚ) (largest : Bool) : IsTotal ℕ (topkRel xs largest) := by
  constructor
  intro a b
  unfold topkRel
  by_cases h : xs.getD a 0 = xs.getD b 0
  · rw [if_pos h, if_pos h.symm]
    omega
  · rw [if_neg h, if_neg (Ne.symm h)]
    cases largest
    · rw [if_neg Bool.false_ne_true, if_neg Bool.false_ne_true]
      rcases lt_or_gt_of_ne h with hlt | hgt
      · left
        exact hlt
      · right
        exact hgt
    · rw [if_pos rfl, if_pos rfl]
      rcases lt_or_gt_of_ne h with hlt | hgt
      · right
        exact hlt
      · left
        exact hgt

/-- Lines 59-60: `query = np.zeros((h * w), dtype=np.bool); query[ind_queries] = True`. -/
def mkQuery (n : ℕ) (inds : List ℕ) : List Bool :=
  (List.range n).map (fun i => decide (i ∈ inds))

/-- Boolean masked assignment `uc_map[mask] = v` on flattened tensors. -/
def overwrite : List ℚ → List Bool → ℚ → List ℚ
  | [], _, _ => []
  | x :: xs, [], _ => x :: xs
  | x :: xs, b :: bs, v => (if b then v else x) :: overwrite xs bs v

/-- `np.reshape((h, w))` of a flat row-major list. -/
def reshape2 (h w : ℕ) (l : List α) : List (List α) :=
  (List.range h).map (fun r => ((l.drop (r * w)).take w))

/-- Configuration surface of `QuerySelector` (the `args` fields read by the
embedded code paths). -/
structure Args where
  query_strategy : String
  n_pixels_by_us : ℕ
  top_n_percent : ℚ
  reverse_order : Bool
  use_mc_dropout : Bool
  mc_n_steps : ℕ
  ignore_index : ℤ
  n_classes : ℕ
deriving DecidableEq

/-- `QuerySelector._select_queries` (lines 30-62).  `choice` abstracts
`np.random.choice(·, ·, False)`; the guards reproduce the exceptions the
numeric layer raises (`assert` at line 36, the sample-larger-than-population
`ValueError` of `np.random.choice`, the out-of-range `RuntimeError` of
`torch.topk` when `k` exceeds the number of elements). -/
def select_queries (choice : List ℕ → ℕ → List ℕ) (args : Args) (h w : ℕ)
    (uc_map : List ℚ) : Except String (List Bool) :=
  let k := select_k args.top_n_percent args.n_pixels_by_us h w
  if args.reverse_order then
    if 0 < args.top_n_percent then
      if h * w < k then
        Except.error ("ValueError: cannot take a larger sample than population")
      else
        let ind_rand := choice (List.range (h * w)) k
        let uc2 := (List.range (h * w)).map
          (fun i => if i ∈ ind_rand then uc_map.getD i 0 else maskValue args.query_strategy)
        if h * w < args.n_pixels_by_us then
          Except.error ("RuntimeError: selected index k out of range")
        else
          Except.ok (mkQuery (h * w)
            (topkIndices uc2 args.n_pixels_by_us (isLargest args.query_strategy)))
    else Except.error ("AssertionError")
  else
    if h * w < k then Except.error ("RuntimeError: selected index k out of range")
    else
      let ind_queries := topkIndices uc_map k (isLargest args.query_strategy)
      if 0 < args.top_n_percent then
        if ind_queries.length < args.n_pixels_by_us then
          Except.error ("ValueError: cannot take a larger sample than population")
        else Except.ok (mkQuery (h * w) (choice ind_queries args.n_pixels_by_us))
      else Except.ok (mkQuery (h * w) ind_queries)

/-- `query.sum()` for a flattened boolean mask. -/
def trueCount (q : List Bool) : ℕ := q.countP id

/-- `query.sum()` for an (H, W) boolean mask. -/
def trueCount2 (q : List (List Bool)) : ℕ := trueCount q.flatten

/-! ### The Monte-Carlo-dropout branch (lines 89-99)

Line 98 reads the name `up_map`, which no statement of `__call__` ever
assigns (the accumulator is spelled `uc_map`), so CPython raises `NameError`
when evaluating the right-hand side of `up_map = up_map / self.mc_n_steps`.
To keep that faithful we model the block over an explicit local-variable
environment: an association list from names to values, looked up
first-match, with `NameError` on a missing name. -/

/-- A Python local value of the MC-dropout block: an `(h, w)` tensor
(flattened), a `(1, C, h, w)` probability tensor (per-pixel class lists), or
the loop counter. -/
inductive PyVal where
  | vec : List ℚ → PyVal
  | mat : List (List ℚ) → PyVal
  | int : ℕ → PyVal
deriving DecidableEq

abbrev PyEnv := List (String × PyVal)

/-- Assignment `x = v`: shadows any earlier binding. -/
def pyAssign (env : PyEnv) (x : String) (v : PyVal) : PyEnv := (x, v) :: env

/-- Reading the name `x`; raises `NameError` when `x` was never assigned. -/
def pyName (env : PyEnv) (x : String) : Except String PyVal :=
  match env.find? (fun p => p.1 == x) with
  | some p => Except.ok p.2
  | none => Except.error ("NameError: name " ++ x ++ " is not defined")

/-- Elementwise `+=` on equally-shaped flattened tensors. -/
def vecAdd (a b : List ℚ) : List ℚ := a.zipWith (· + ·) b

def matAdd (a b : List (List ℚ)) : List (List ℚ) := a.zipWith vecAdd b

/-- Elementwise division of a tensor value by a scalar. -/
def pyDivVal (v : PyVal) (q : ℚ) : PyVal :=
  match v with
  | PyVal.vec l => PyVal.vec (l.map (· / q))
  | PyVal.mat m => PyVal.mat (m.map (fun r => r.map (· / q)))
  | PyVal.int n => PyVal.int n

/-- `uc_map += uc_map_` on environment values (line 96). -/
def addUc (u : PyVal) (m : List ℚ) : PyVal :=
  match u with
  | PyVal.vec v => PyVal.vec (vecAdd v m)
  | z => z

/-- `prob += prob_` on environment values (line 97). -/
def addProb (p : PyVal) (pm : List (List ℚ)) : PyVal :=
  match p with
  | PyVal.mat mm => PyVal.mat (matAdd mm pm)
  | z => z

/-- One iteration of the loop at lines 93-97 of `QuerySelector.__call__`
(the `use_mc_dropout` branch), over the local-variable environment. -/
def mc_step (objectCall : String → Except String SamplerResult)
    (log : ℚ → ℚ) (query_strategy : String) (step_probs : ℕ → List (List ℚ))
    (step_rands : ℕ → List ℚ) (env : PyEnv) (step : ℕ) : Except String PyEnv :=
  let env1 := pyAssign env ("step") (PyVal.int step)
  -- line 94: prob_ = F.softmax(model(x)["pred"], dim=1)[:, :, :h, :w]
  let prob_ := step_probs step
  let env2 := pyAssign env1 ("prob_") (PyVal.mat prob_)
  -- line 95: uc_map_ = self.uncertainty_sampler(prob_).squeeze(dim=0)
  match sampler_call objectCall log (step_rands step) query_strategy prob_ with
  | Except.error e => Except.error e
  | Except.ok SamplerResult.pyNone =>
      Except.error ("AttributeError: NoneType object has no attribute squeeze")
  | Except.ok (SamplerResult.pyObject _) =>
      Except.error ("AttributeError: object has no attribute squeeze")
  | Except.ok (SamplerResult.map uc_map_) =>
    let env3 := pyAssign env2 ("uc_map_") (PyVal.vec uc_map_)
    -- line 96: uc_map += uc_map_
    match pyName env3 ("uc_map") with
    | Except.error e => Except.error e
    | Except.ok uc =>
      let env4 := pyAssign env3 ("uc_map") (addUc uc uc_map_)
      -- line 97: prob += prob_
      match pyName env4 ("prob") with
      | Except.error e => Except.error e
      | Except.ok p =>
        Except.ok (pyAssign env4 ("prob") (addProb p prob_))

/-- Lines 98-104 of the `use_mc_dropout` branch, after the loop: the
division statements and the hand-off of `uc_map`/`prob` to lines 107-115.
Line 98 reads `up_map` — a name the block never assigns. -/
def mc_finish (mc_n_steps : ℕ) (env : PyEnv) : Except String (List ℚ × List (List ℚ)) :=
  -- line 98: up_map = up_map / self.mc_n_steps
  match pyName env ("up_map") with
  | Except.error e => Except.error e
  | Except.ok up =>
    let env2 := pyAssign env ("up_map") (pyDivVal up (mc_n_steps : ℚ))
    -- line 99: prob = prob / self.mc_n_steps
    match pyName env2 ("prob") with
    | Except.error e => Except.error e
    | Except.ok p =>
      let env3 := pyAssign env2 ("prob") (pyDivVal p (mc_n_steps : ℚ))
      -- the values consumed by lines 107-115
      match pyName env3 ("uc_map"), pyName env3 ("prob") with
      | Except.ok (PyVal.vec v), Except.ok (PyVal.mat m) => Except.ok (v, m)
      | Except.error e, _ => Except.error e
      | _, Except.error e => Except.error e
      | _, _ => Except.error ("TypeError")

/-- Lines 89-99 of `QuerySelector.__call__` (the `use_mc_dropout` branch).
`step_probs step` abstracts `F.softmax(model(x)["pred"], dim=1)[:, :, :h, :w]`
of the given step (dropout active, so each step may differ) and `step_rands`
the `torch.rand` draw the sampler would use under the `random` strategy.
Returns the `(uc_map, prob)` pair that lines 107-115 go on to consume. -/
def mc_branch (objectCall : String → Except String SamplerResult)
    (log : ℚ → ℚ) (query_strategy : String) (mc_n_steps n_classes h w : ℕ)
    (step_probs : ℕ → List (List ℚ)) (step_rands : ℕ → List ℚ) :
    Except String (List ℚ × List (List ℚ)) :=
  -- line 90: uc_map = torch.zeros((h, w))
  let env0 := pyAssign [] ("uc_map") (PyVal.vec (List.replicate (h * w) 0))
  -- line 91: prob = torch.zeros((x.shape[0], self.n_classes, h, w))
  let env1 := pyAssign env0 ("prob")
    (PyVal.mat (List.replicate (h * w) (List.replicate n_classes 0)))
  -- lines 93-97: for step in range(self.mc_n_steps): ...
  match (List.range mc_n_steps).foldlM
      (mc_step objectCall log query_strategy step_probs step_rands) env1 with
  | Except.error e => Except.error e
  | Except.ok env => mc_finish mc_n_steps env

/-! ### QueryStats (lines 154-211) -/

/-- `np.where(query)` on an (H, W) boolean mask: the row-major list of
(row, column) coordinates of the `True` entries. -/
def whereCoords (q : List (List Bool)) : List (ℕ × ℕ) :=
  (q.enum.map (fun rc =>
    rc.2.enum.filterMap (fun cb => if cb.2 then some (rc.1, cb.1) else none))).flatten

/-- One entry of the pairwise-distance matrix
`np.sqrt((x_loc - x_loc_t) ** 2 + (y_loc - y_loc_t) ** 2)`. -/
def pdist (sqrt : ℚ → ℚ) (a b : ℕ × ℕ) : ℚ :=
  sqrt (((a.1 : ℚ) - (b.1 : ℚ)) ^ 2 + ((a.2 : ℚ) - (b.2 : ℚ)) ^ 2)

/-- The row-major off-diagonal entries `dist[~np.eye(n)]` of the pairwise
distance matrix. -/
def offDiag (sqrt : ℚ → ℚ) (cs : List (ℕ × ℕ)) : List ℚ :=
  (cs.enum.map (fun ia =>
    cs.enum.filterMap (fun jb =>
      if ia.1 = jb.1 then none else some (pdist sqrt ia.2 jb.2)))).flatten

/-- `np.mean` of a float list: the not-a-number result on an empty list is
modelled as `none`. -/
def np_mean (xs : List ℚ) : Option ℚ :=
  if xs.length = 0 then none else some (xs.sum / (xs.length : ℚ))

/-- `np.mean` over a list that may already hold NaN entries (`none`):
any NaN poisons the mean, and the empty mean is NaN. -/
def np_mean_nan (xs : List (Option ℚ)) : Option ℚ :=
  if xs.any (fun o => o.isNone) then none else np_mean (xs.filterMap id)

/-- `QueryStats._spatial_coverage` (lines 174-184).  For `n = 0` selected
pixels `dist[~np.eye(0)].reshape(0, -1)` raises the `ValueError` the code
catches, returning `np.NaN`; for `n = 1` the reshape yields a `(1, 0)` array
whose empty mean is NaN; otherwise the mean of the `n * (n - 1)` off-diagonal
distances is returned.  NaN is modelled as `none`. -/
def spatial_coverage (sqrt : ℚ → ℚ) (query : List (List Bool)) : Option ℚ :=
  let cs := whereCoords query
  if cs.length = 0 then none
  else np_mean (offDiag sqrt cs)

/-- The spec-side quantity: the mean pairwise Euclidean distance among the
selected pixel coordinates — over every ordered pair of *distinct* positions
of the coordinate list, the distance between the two coordinates, divided by
the number `n * (n - 1)` of such pairs (each unordered pair contributes
twice to numerator and denominator alike, leaving the mean unchanged). -/
def meanPairwiseDist (sqrt : ℚ → ℚ) (cs : List (ℕ × ℕ)) : ℚ :=
  ((cs.enum.map (fun ia =>
    (cs.enum.map (fun jb => if ia.1 = jb.1 then 0 else pdist sqrt ia.2 jb.2)).sum)).sum) /
    ((cs.length * (cs.length - 1) : ℕ) : ℚ)

/-- `y.flatten()[query.flatten()]`: the ground-truth labels at the selected
pixels, in row-major order. -/
def selectedLabels (query : List (List Bool)) (y : List (List ℤ)) : List ℤ :=
  (y.flatten.zip query.flatten).filterMap (fun p => if p.2 then some p.1 else none)

/-- `self.dict_label_cnt[l] += 1` — the histogram has exactly the keys
`0, ..., n_classes - 1` (line 158), held here as a length-`n_classes` list;
any other label raises `KeyError`. -/
def dictIncr (cnt : List ℕ) (l : ℤ) : Except String (List ℕ) :=
  if 0 ≤ l ∧ l.toNat < cnt.length then
    Except.ok (cnt.set l.toNat (cnt.getD l.toNat 0 + 1))
  else Except.error ("KeyError")

/-- `QueryStats._count_labels` (lines 160-162). -/
def count_labels (cnt : List ℕ) (query : List (List Bool)) (y : List (List ℤ)) :
    Except String (List ℕ) :=
  (selectedLabels query y).foldlM dictIncr cnt

/-- `QueryStats._get_entropy` (lines 164-168): per-pixel Shannon entropy of
`prob`, boolean-indexed by the query mask. -/
def get_entropy (log : ℚ → ℚ) (query : List (List Bool)) (prob : List (List ℚ)) : List ℚ :=
  ((entropy_map log prob).zip query.flatten).filterMap (fun p => if p.2 then some p.1 else none)

/-- `QueryStats._n_unique_labels` (lines 170-172): `len(set(...))`. -/
def n_unique_labels (query : List (List Bool)) (y : List (List ℤ)) : ℕ :=
  (selectedLabels query y).dedup.length

/-- The accumulator state of `QueryStats` (line 157-158). -/
structure QStats where
  dict_label_cnt : List ℕ
  list_entropy : List ℚ
  list_n_unique_labels : List ℕ
  list_spatial_coverage : List (Option ℚ)
deriving DecidableEq

/-- `QueryStats.__init__`: all-zero histogram over `range(n_classes)`,
empty lists. -/
def qstats_init (n_classes : ℕ) : QStats :=
  { dict_label_cnt := List.replicate n_classes 0
    list_entropy := []
    list_n_unique_labels := []
    list_spatial_coverage := [] }

/-- `QueryStats.update` (lines 199-211): count labels first (a `KeyError`
there aborts the update), then extend/append the three statistic lists. -/
def qstats_update (log sqrt : ℚ → ℚ) (st : QStats) (query : List (List Bool))
    (y : List (List ℤ)) (prob : List (List ℚ)) : Except String QStats := do
  let cnt ← count_labels st.dict_label_cnt query y
  Except.ok
    { dict_label_cnt := cnt
      list_entropy := st.list_entropy ++ get_entropy log query prob
      list_n_unique_labels := st.list_n_unique_labels ++ [n_unique_labels query y]
      list_spatial_coverage := st.list_spatial_coverage ++ [spatial_coverage sqrt query] }

/-- A sequence of `update` calls within one round, starting from the
freshly initialized statistics. -/
def qstats_run (log sqrt : ℚ → ℚ) (n_classes : ℕ)
    (rounds : List (List (List Bool) × List (List ℤ) × List (List ℚ))) :
    Except String QStats :=
  rounds.foldlM (fun st r => qstats_update log sqrt st r.1 r.2.1 r.2.2) (qstats_init n_classes)

/-! ### QuerySelector.__call__ (lines 64-125) -/

/-- One element of the query dataloader, with the external collaborators
already evaluated: `y` is the ground-truth map, `mask` the eligibility mask
`queries[batch_ind]`, `prob` the softmax model output of the deterministic
path, `mc_probs`/`mc_rands` the per-step model outputs and `torch.rand`
draws of the MC-dropout path, `randMap` the `torch.rand` draw of the
`random` strategy. -/
structure Image where
  h : ℕ
  w : ℕ
  y : List (List ℤ)
  mask : List (List Bool)
  prob : List (List ℚ)
  randMap : List ℚ
  mc_probs : ℕ → List (List ℚ)
  mc_rands : ℕ → List ℚ

/-- `QuerySelector.__call__` (lines 64-125), module boundaries as in the
file header: checkpoint I/O (`query_stats.save`), the tqdm progress bar, the
`voc` reflective padding (cropped back out before scoring) and the final
`label_queries` delegation to the dataset are external.  Returns the
accumulated per-image query masks and the total `n_pixels`.  The `assert`
at line 119 demands a nonempty `list_queries`. -/
def query_selector_call (objectCall : String → Except String SamplerResult)
    (log sqrt : ℚ → ℚ) (choice : List ℕ → ℕ → List ℕ)
    (args : Args) (images : List Image) :
    Except String (List (List (List Bool)) × ℕ) := do
  let init : List (List (List Bool)) × ℕ × QStats := ([], 0, qstats_init args.n_classes)
  let res ← images.foldlM (fun acc img => do
    let list_queries := acc.1
    let n_pixels := acc.2.1
    let stats := acc.2.2
    -- line 78: mask_void = (y == self.ignore_index)
    let mask_void := img.y.map (fun row => row.map (fun l => decide (l = args.ignore_index)))
    -- lines 88-104: uncertainty map and probability map
    let ucProb ← (if args.use_mc_dropout then
        mc_branch objectCall log args.query_strategy args.mc_n_steps args.n_classes img.h img.w
          img.mc_probs img.mc_rands
      else do
        let sr ← sampler_call objectCall log img.randMap args.query_strategy img.prob
        match sr with
        | SamplerResult.map m => Except.ok (m, img.prob)
        | SamplerResult.pyNone =>
            Except.error ("AttributeError: NoneType object has no attribute squeeze")
        | SamplerResult.pyObject _ =>
            Except.error ("AttributeError: object has no attribute squeeze"))
    let uc_map := ucProb.1
    let prob := ucProb.2
    -- lines 107-108: overwrite already-annotated and void pixels
    let mv := maskValue args.query_strategy
    let uc_map := overwrite uc_map img.mask.flatten mv
    let uc_map := overwrite uc_map mask_void.flatten mv
    -- line 111: query = self._select_queries(uc_map)
    let queryFlat ← select_queries choice args img.h img.w uc_map
    let query := reshape2 img.h img.w queryFlat
    -- line 115: self.query_stats.update(query, y, prob)
    let stats ← qstats_update log sqrt stats query img.y prob
    -- lines 112-113: accumulate the mask and n_pixels += query.sum()
    Except.ok (list_queries ++ [query], n_pixels + trueCount2 query, stats)) init
  -- line 119: assert len(list_queries) > 0, "no queries are chosen!"
  if res.1.length > 0 then Except.ok (res.1, res.2.1)
  else Except.error ("AssertionError: no queries are chosen!")

/-! ## Helper lemmas -/

lemma valBefore_irrefl (largest : Bool) (a : ℚ) : ¬ valBefore largest a a := by
  unfold valBefore
  cases largest <;> simp

lemma valBefore_trans {largest : Bool} {a b c : ℚ}
    (h1 : valBefore largest a b) (h2 : valBefore largest b c) : valBefore largest a c := by
  unfold valBefore at h1 h2 ⊢
  cases largest
  · rw [if_neg Bool.false_ne_true] at h1 h2 ⊢
    exact h1.trans h2
  · rw [if_pos rfl] at h1 h2 ⊢
    exact h2.trans h1

lemma topkIndices_nodup (xs : List ℚ) (k : ℕ) (largest : Bool) :
    (topkIndices xs k largest).Nodup :=
  (List.take_sublist _ _).nodup
    (((List.perm_insertionSort _ _).nodup_iff).mpr (List.nodup_range _))

lemma topkIndices_lt (xs : List ℚ) (k : ℕ) (largest : Bool) :
    ∀ i ∈ topkIndices xs k largest, i < xs.length := by
  intro i hi
  have hmem : i ∈ List.insertionSort (topkRel xs largest) (List.range xs.length) :=
    (List.take_sublist _ _).mem hi
  exact List.mem_range.mp ((List.perm_insertionSort _ _).mem_iff.mp hmem)

lemma topkIndices_length (xs : List ℚ) (k : ℕ) (largest : Bool) :
    (topkIndices xs k largest).length = min k xs.length := by
  simp [topkIndices]

/-- The heart of the top-k selection arguments: if at least `k` positions
hold a score that strictly beats the threshold `c` (in the direction of the
strategy), then every index returned by the top-`k` operation holds such a
score — in particular no position whose score was overwritten with the
threshold value itself can be returned. -/
lemma topkIndices_valBefore_of_count (xs : List ℚ) (k : ℕ) (largest : Bool) (c : ℚ)
    (hcount : k ≤ (List.range xs.length).countP
      (fun i => decide (valBefore largest (xs.getD i 0) c))) :
    ∀ x ∈ topkIndices xs k largest, valBefore largest (xs.getD x 0) c := by
  intro x hx
  by_contra hxc
  set n := xs.length with hn
  set L := List.insertionSort (topkRel xs largest) (List.range n) with hL
  set B := (List.range n).filter (fun i => decide (valBefore largest (xs.getD i 0) c)) with hB
  have hperm : List.Perm L (List.range n) := List.perm_insertionSort _ _
  have hsorted : L.Sorted (topkRel xs largest) := List.sorted_insertionSort _ _
  have hnodupL : L.Nodup := (hperm.nodup_iff).mpr (List.nodup_range _)
  have hxtake : x ∈ L.take k := hx
  -- every index of B lands in the first k sorted positions
  have hBsub : ∀ b ∈ B, b ∈ L.take k := by
    intro b hb
    have hPb : valBefore largest (xs.getD b 0) c := by
      have := List.of_mem_filter hb
      simpa using this
    have hbL : b ∈ L := hperm.mem_iff.mpr (List.mem_of_mem_filter hb)
    have hsplit : b ∈ (L.take k ++ L.drop k) := by
      rwa [List.take_append_drop]
    rcases List.mem_append.mp hsplit with h | h
    · exact h
    · exfalso
      have hpw_all : List.Pairwise (topkRel xs largest) (List.take k L ++ List.drop k L) := by
        rw [List.take_append_drop k L]
        exact hsorted
      have hpw := (List.pairwise_append.mp hpw_all).2.2
      have hrel : topkRel xs largest x b := hpw x hxtake b h
      unfold topkRel at hrel
      by_cases heq : xs.getD x 0 = xs.getD b 0
      · rw [heq] at hxc
        exact hxc hPb
      · rw [if_neg heq] at hrel
        have hvb : valBefore largest (xs.getD x 0) (xs.getD b 0) := by
          unfold valBefore
          exact hrel
        exact hxc (valBefore_trans hvb hPb)
  -- cardinality: B together with x would exceed the k slots
  have hxn : x < n := topkIndices_lt xs k largest x hx
  have hxnotB : x ∉ B := by
    intro hmem
    apply hxc
    have := List.of_mem_filter hmem
    simpa using this
  have htakeN : (L.take k).Nodup := (List.take_sublist _ _).nodup hnodupL
  have hBN : B.Nodup := (List.nodup_range n).filter _
  have hsubF : insert x B.toFinset ⊆ (L.take k).toFinset := by
    intro a ha
    rcases Finset.mem_insert.mp ha with rfl | ha
    · exact List.mem_toFinset.mpr hxtake
    · exact List.mem_toFinset.mpr (hBsub a (List.mem_toFinset.mp ha))
  have hcard : B.toFinset.card + 1 ≤ (L.take k).toFinset.card := by
    have hins : (insert x B.toFinset).card = B.toFinset.card + 1 :=
      Finset.card_insert_of_not_mem (fun h => hxnotB (List.mem_toFinset.mp h))
    calc B.toFinset.card + 1 = (insert x B.toFinset).card := hins.symm
      _ ≤ (L.take k).toFinset.card := Finset.card_le_card hsubF
  have h1 : B.toFinset.card = B.length := List.toFinset_card_of_nodup hBN
  have h2 : (L.take k).toFinset.card = (L.take k).length := List.toFinset_card_of_nodup htakeN
  have h3 : (L.take k).length ≤ k := by
    simp [List.length_take]
  have h4 : k ≤ B.length := by
    rw [hB, ← List.countP_eq_length_filter]
    exact hcount
  omega

lemma mkQuery_length (n : ℕ) (inds : List ℕ) : (mkQuery n inds).length = n := by
  simp [mkQuery]

lemma mkQuery_getD_lt (n : ℕ) (inds : List ℕ) (i : ℕ) (h : i < n) :
    (mkQuery n inds).getD i false = decide (i ∈ inds) := by
  unfold mkQuery
  rw [List.getD_eq_getElem _ _ (by simpa using h)]
  simp

lemma mkQuery_getD_ge (n : ℕ) (inds : List ℕ) (i : ℕ) (h : n ≤ i) :
    (mkQuery n inds).getD i false = false := by
  apply List.getD_eq_default
  simpa [mkQuery] using h

lemma trueCount_mkQuery (n : ℕ) (inds : List ℕ) (hnd : inds.Nodup)
    (hlt : ∀ i ∈ inds, i < n) : trueCount (mkQuery n inds) = inds.length := by
  unfold trueCount mkQuery
  rw [List.countP_map]
  have hfun : ((fun b => id b) ∘ fun i => decide (i ∈ inds)) = fun i => decide (i ∈ inds) := rfl
  rw [show (id ∘ fun i => decide (i ∈ inds)) = fun i => decide (i ∈ inds) from rfl]
  rw [List.countP_eq_length_filter]
  have hN : ((List.range n).filter (fun i => decide (i ∈ inds))).Nodup :=
    (List.nodup_range n).filter _
  have hEq : ((List.range n).filter (fun i => decide (i ∈ inds))).toFinset = inds.toFinset := by
    ext a
    simp only [List.mem_toFinset, List.mem_filter, List.mem_range, decide_eq_true_eq]
    exact ⟨fun h => h.2, fun h => ⟨hlt a h, h⟩⟩
  calc ((List.range n).filter (fun i => decide (i ∈ inds))).length
      = ((List.range n).filter (fun i => decide (i ∈ inds))).toFinset.card :=
        (List.toFinset_card_of_nodup hN).symm
    _ = inds.toFinset.card := by rw [hEq]
    _ = inds.length := List.toFinset_card_of_nodup hnd

lemma overwrite_length (uc : List ℚ) (m : List Bool) (v : ℚ) :
    (overwrite uc m v).length = uc.length := by
  induction uc generalizing m with
  | nil => rfl
  | cons x xs ih =>
    cases m with
    | nil => rfl
    | cons b bs => simp [overwrite, ih]

lemma overwrite_getD_true (uc : List ℚ) (m : List Bool) (v : ℚ) (i : ℕ)
    (hm : m.getD i false = true) (hi : i < uc.length) :
    (overwrite uc m v).getD i 0 = v := by
  induction uc generalizing m i with
  | nil => simp at hi
  | cons x xs ih =>
    cases m with
    | nil => simp at hm
    | cons b bs =>
      cases i with
      | zero =>
        rw [List.getD_cons_zero] at hm
        simp [overwrite, hm]
      | succ j =>
        rw [List.getD_cons_succ] at hm
        simp only [overwrite, List.getD_cons_succ]
        exact ih bs j hm (by simpa using Nat.lt_of_succ_lt_succ hi)

lemma overwrite_getD_false (uc : List ℚ) (m : List Bool) (v : ℚ) (i : ℕ)
    (hm : m.getD i false = false) :
    (overwrite uc m v).getD i 0 = uc.getD i 0 := by
  induction uc generalizing m i with
  | nil => rfl
  | cons x xs ih =>
    cases m with
    | nil => rfl
    | cons b bs =>
      cases i with
      | zero =>
        rw [List.getD_cons_zero] at hm
        simp [overwrite, hm]
      | succ j =>
        rw [List.getD_cons_succ] at hm
        simp only [overwrite, List.getD_cons_succ]
        exact ih bs j hm

/-- Equation for `_select_queries` in direct fixed-budget mode
(`reverse_order = False`, `top_n_percent = 0`). -/
lemma select_queries_direct (choice : List ℕ → ℕ → List ℕ) (args : Args) (h w : ℕ)
    (uc_map : List ℚ) (hrev : args.reverse_order = false) (htop : args.top_n_percent = 0)
    (hnp : args.n_pixels_by_us ≤ h * w) :
    select_queries choice args h w uc_map =
      Except.ok (mkQuery (h * w)
        (topkIndices uc_map args.n_pixels_by_us (isLargest args.query_strategy))) := by
  unfold select_queries select_k
  rw [hrev, htop]
  simp [hnp, Nat.not_lt.mpr hnp]

/-- Equation for `_select_queries` in two-stage randomized mode
(`reverse_order = True`), with the candidate pool drawn by `choice`. -/
lemma select_queries_reverse (choice : List ℕ → ℕ → List ℕ) (args : Args) (h w : ℕ)
    (uc_map : List ℚ) (hrev : args.reverse_order = true)
    (htop : 0 < args.top_n_percent)
    (hk : select_k args.top_n_percent args.n_pixels_by_us h w ≤ h * w)
    (hnp : args.n_pixels_by_us ≤ h * w) :
    select_queries choice args h w uc_map =
      Except.ok (mkQuery (h * w)
        (topkIndices
          ((List.range (h * w)).map (fun i =>
            if i ∈ choice (List.range (h * w))
                (select_k args.top_n_percent args.n_pixels_by_us h w) then
              uc_map.getD i 0
            else maskValue args.query_strategy))
          args.n_pixels_by_us (isLargest args.query_strategy))) := by
  unfold select_queries
  rw [hrev]
  simp [htop, Nat.not_lt.mpr hk, Nat.not_lt.mpr hnp]

lemma getD_map_range (f : ℕ → ℚ) (n i : ℕ) (h : i < n) :
    ((List.range n).map f).getD i 0 = f i := by
  rw [List.getD_eq_getElem _ _ (by simpa using h)]
  simp

lemma countP_range_mem (n : ℕ) (inds : List ℕ) (hnd : inds.Nodup)
    (hlt : ∀ i ∈ inds, i < n) :
    (List.range n).countP (fun i => decide (i ∈ inds)) = inds.length := by
  rw [List.countP_eq_length_filter]
  have hN : ((List.range n).filter (fun i => decide (i ∈ inds))).Nodup :=
    (List.nodup_range n).filter _
  have hEq : ((List.range n).filter (fun i => decide (i ∈ inds))).toFinset = inds.toFinset := by
    ext a
    simp only [List.mem_toFinset, List.mem_filter, List.mem_range, decide_eq_true_eq]
    exact ⟨fun h => h.2, fun h => ⟨hlt a h, h⟩⟩
  calc ((List.range n).filter (fun i => decide (i ∈ inds))).length
      = ((List.range n).filter (fun i => decide (i ∈ inds))).toFinset.card :=
        (List.toFinset_card_of_nodup hN).symm
    _ = inds.toFinset.card := by rw [hEq]
    _ = inds.length := List.toFinset_card_of_nodup hnd

/-! ## Claims -/

/-- C5, counterexample: with `top_n_percent = 9/10` and a 1×1 map, the code
computes `k = int(0.9) = 0` while nearest-integer rounding of
`top_n_percent * H * W = 0.9` gives `1` — the candidate-pool size is not the
nearest-integer rounding of the product. -/
theorem C5_counterexample :
    select_k (9/10) 5 1 1 = 0 ∧
      (round (((1:ℕ) : ℚ) * ((1:ℕ) : ℚ) * (9/10))).toNat = 1 ∧
      select_k (9/10) 5 1 1 ≠ (round (((1:ℕ) : ℚ) * ((1:ℕ) : ℚ) * (9/10))).toNat := by
  have h1 : select_k (9/10) 5 1 1 = 0 := by
    norm_num [select_k, pyInt]
  have h2 : (round (((1:ℕ) : ℚ) * ((1:ℕ) : ℚ) * (9/10))).toNat = 1 := by
    norm_num [round_eq]
  refine ⟨h1, h2, ?_⟩
  rw [h1, h2]
  decide

/-- C5 (corrected): in the budgeted selection routine, when
`top_n_percent > 0` the candidate-pool size is
`k = int(top_n_percent * H * W)`, the *truncation toward zero* (floor, for a
positive product) of the product rather than its nearest-integer rounding;
when `top_n_percent <= 0` the routine uses `k = n_pixels_by_us`. -/
theorem C5_budget_k (t : ℚ) (np h w : ℕ) :
    (0 < t → select_k t np h w = (⌊(h : ℚ) * w * t⌋).toNat) ∧
      (t ≤ 0 → select_k t np h w = np) := by
  constructor
  · intro ht
    unfold select_k pyInt
    rw [if_pos ht, if_pos]
    exact mul_nonneg (mul_nonneg (Nat.cast_nonneg h) (Nat.cast_nonneg w)) ht.le
  · intro ht
    unfold select_k
    rw [if_neg (not_lt.mpr ht)]

theorem C5_budget_k_witness :
    select_k (1/2) 5 4 4 = (⌊((4:ℕ) : ℚ) * ((4:ℕ) : ℚ) * (1/2)⌋).toNat ∧
      select_k 0 5 4 4 = 5 :=
  ⟨(C5_budget_k (1/2) 5 4 4).1 (by norm_num), (C5_budget_k 0 5 4 4).2 (by norm_num)⟩

/-- C6 (confirmed): in direct mode with `top_n_percent = 0` (and
`reverse_order` false), for every uncertainty map of shape (H, W) with
`H*W >= n_pixels_by_us`, the selection routine returns a boolean mask of
`H*W` entries of which exactly `n_pixels_by_us` are true. -/
theorem C6_direct_exact_budget (choice : List ℕ → ℕ → List ℕ) (args : Args) (h w : ℕ)
    (uc_map : List ℚ) (q : List Bool)
    (hrev : args.reverse_order = false) (htop : args.top_n_percent = 0)
    (hlen : uc_map.length = h * w) (hnp : args.n_pixels_by_us ≤ h * w)
    (hq : select_queries choice args h w uc_map = Except.ok q) :
    trueCount q = args.n_pixels_by_us ∧ q.length = h * w := by
  rw [select_queries_direct choice args h w uc_map hrev htop hnp] at hq
  cases hq
  constructor
  · rw [trueCount_mkQuery _ _ (topkIndices_nodup _ _ _)
      (fun i hi => hlen ▸ topkIndices_lt uc_map _ _ i hi)]
    rw [topkIndices_length, hlen]
    exact min_eq_left hnp
  · exact mkQuery_length _ _

theorem C6_direct_exact_budget_witness :
    trueCount [true, false, false, false] = 1 ∧
      ([true, false, false, false] : List Bool).length = 2 * 2 :=
  C6_direct_exact_budget (fun l n => l.take n)
    { query_strategy := "entropy", n_pixels_by_us := 1, top_n_percent := 0,
      reverse_order := false, use_mc_dropout := false, mc_n_steps := 1,
      ignore_index := 255, n_classes := 2 }
    2 2 [0, 0, 0, 0] [true, false, false, false] rfl rfl (by decide) (by decide) (by rfl)

/-- C3, counterexample: with every pixel eligibility-masked (so the masked
map is all mask-value) and `n_pixels_by_us = 1`, the top-k operation still
returns an index, and the selected pixel 0 is one the eligibility mask had
marked: a masked pixel does appear as true in the returned QueryMask. -/
theorem C3_counterexample :
    select_queries (fun l n => l.take n)
      { query_strategy := "entropy", n_pixels_by_us := 1, top_n_percent := 0,
        reverse_order := false, use_mc_dropout := false, mc_n_steps := 1,
        ignore_index := 255, n_classes := 2 } 2 2
      (overwrite (overwrite [1, 2, 3, 4] [true, true, true, true] (maskValue "entropy"))
        [false, false, false, false] (maskValue "entropy"))
      = Except.ok [true, false, false, false] ∧
    ([true, true, true, true] : List Bool).getD 0 false = true ∧
    ([true, false, false, false] : List Bool).getD 0 false = true := by
  refine ⟨by rfl, by rfl, by rfl⟩

/-- C3 (corrected): after ineligible pixels are overwritten with the
strategy-specific mask value (0 for entropy/least-confidence, 1 for
margin/random), no eligibility- or void-masked pixel is true in the returned
QueryMask, *provided* at least `n_pixels_by_us` unmasked pixels score
strictly better than the mask value in the strategy's top-k direction; when
the budget exceeds the number of such pixels the top-k operation fills the
quota with masked pixels (the code over-selects, as the counterexample
shows).  Stated for the direct fixed-budget mode used by the per-round
pipeline default (`reverse_order = false`, `top_n_percent = 0`). -/
theorem C3_masked_never_selected (choice : List ℕ → ℕ → List ℕ) (args : Args) (h w : ℕ)
    (uc : List ℚ) (mask void : List Bool) (q : List Bool)
    (hrev : args.reverse_order = false) (htop : args.top_n_percent = 0)
    (hlen : uc.length = h * w) (hmlen : mask.length = h * w) (hvlen : void.length = h * w)
    (hcount : args.n_pixels_by_us ≤ (List.range (h * w)).countP (fun i =>
      decide ((mask.getD i false = false ∧ void.getD i false = false) ∧
        valBefore (isLargest args.query_strategy) (uc.getD i 0)
          (maskValue args.query_strategy))))
    (hq : select_queries choice args h w
        (overwrite (overwrite uc mask (maskValue args.query_strategy)) void
          (maskValue args.query_strategy)) = Except.ok q) :
    ∀ i, (mask.getD i false = true ∨ void.getD i false = true) → q.getD i false = false := by
  have hnp : args.n_pixels_by_us ≤ h * w := by
    refine le_trans hcount ?_
    calc (List.range (h * w)).countP _ ≤ (List.range (h * w)).length := List.countP_le_length _
      _ = h * w := List.length_range _
  rw [select_queries_direct choice args h w _ hrev htop hnp] at hq
  cases hq
  intro i hi
  have himask : i < h * w := by
    by_contra hge
    push_neg at hge
    rcases hi with hi | hi
    · rw [List.getD_eq_default _ _ (hmlen ▸ hge)] at hi
      exact Bool.false_ne_true hi
    · rw [List.getD_eq_default _ _ (hvlen ▸ hge)] at hi
      exact Bool.false_ne_true hi
  have hlen1 : (overwrite uc mask (maskValue args.query_strategy)).length = h * w := by
    rw [overwrite_length, hlen]
  have hval : (overwrite (overwrite uc mask (maskValue args.query_strategy)) void
      (maskValue args.query_strategy)).getD i 0 = maskValue args.query_strategy := by
    by_cases hv : void.getD i false = true
    · exact overwrite_getD_true _ _ _ _ hv (by rw [hlen1]; exact himask)
    · rw [Bool.not_eq_true] at hv
      rw [overwrite_getD_false _ _ _ _ hv]
      have hm : mask.getD i false = true := by
        rcases hi with hi | hi
        · exact hi
        · rw [hv] at hi
          exact absurd hi Bool.false_ne_true
      exact overwrite_getD_true _ _ _ _ hm (hlen ▸ himask)
  have hlen2 : (overwrite (overwrite uc mask (maskValue args.query_strategy)) void
      (maskValue args.query_strategy)).length = h * w := by
    rw [overwrite_length, hlen1]
  have hcount2 : args.n_pixels_by_us ≤
      (List.range (overwrite (overwrite uc mask (maskValue args.query_strategy)) void
        (maskValue args.query_strategy)).length).countP (fun j =>
          decide (valBefore (isLargest args.query_strategy)
            ((overwrite (overwrite uc mask (maskValue args.query_strategy)) void
              (maskValue args.query_strategy)).getD j 0) (maskValue args.query_strategy))) := by
    rw [hlen2]
    refine le_trans hcount (List.countP_mono_left ?_)
    intro j hj hpj
    simp only [decide_eq_true_eq] at hpj ⊢
    obtain ⟨⟨hm0, hv0⟩, hvb⟩ := hpj
    rwa [overwrite_getD_false _ _ _ _ hv0, overwrite_getD_false _ _ _ _ hm0]
  have hall := topkIndices_valBefore_of_count _ args.n_pixels_by_us
    (isLargest args.query_strategy) (maskValue args.query_strategy) hcount2
  rw [mkQuery_getD_lt _ _ _ himask]
  simp only [decide_eq_false_iff_not]
  intro hmem
  have hvb := hall i hmem
  rw [hval] at hvb
  exact valBefore_irrefl _ _ hvb

theorem C3_masked_never_selected_witness :
    ([true, false, false, false] : List Bool).getD 1 false = false :=
  C3_masked_never_selected (fun l n => l.take n)
    { query_strategy := "entropy", n_pixels_by_us := 1, top_n_percent := 0,
      reverse_order := false, use_mc_dropout := false, mc_n_steps := 1,
      ignore_index := 255, n_classes := 2 }
    2 2 [5, 0, 0, 0] [false, true, false, false] [false, false, false, false]
    [true, false, false, false] rfl rfl (by decide) (by decide) (by decide) (by decide)
    (by rfl) 1 (Or.inl (by decide))

/-- C4, counterexample: two-stage randomized mode on a 2×2 map with
`top_n_percent = 1/2` (`k = 2`), candidate pool `[2, 3]`, entropy strategy,
uncertainty map `[5, 5, 0, 0]`.  The pool positions hold the value `0`,
equal to the mask value written outside the pool, so the top-1 operation
(ties broken in index order, as torch does) returns index 0 — an index
*outside* the randomly drawn candidate pool is marked true. -/
theorem C4_counterexample :
    select_queries (fun l n => l.drop (l.length - n))
      { query_strategy := "entropy", n_pixels_by_us := 1, top_n_percent := 1/2,
        reverse_order := true, use_mc_dropout := false, mc_n_steps := 1,
        ignore_index := 255, n_classes := 2 } 2 2 [5, 5, 0, 0]
      = Except.ok [true, false, false, false] ∧
    (fun (l : List ℕ) (n : ℕ) => l.drop (l.length - n)) (List.range (2 * 2))
      (select_k (1/2) 1 2 2) = [2, 3] ∧
    ([true, false, false, false] : List Bool).getD 0 false = true ∧
    (0 : ℕ) ∉ ([2, 3] : List ℕ) := by
  have hk : select_k (1/2) 1 2 2 = 2 := by
    have ht : Int.toNat 2 = 2 := rfl
    norm_num [select_k, pyInt, ht]
  refine ⟨?_, ?_, by rfl, by decide⟩
  · have ht : Int.toNat 2 = 2 := rfl
    norm_num [select_queries, select_k, pyInt, topkIndices, topkRel, isLargest, maskValue,
      mkQuery, List.insertionSort, List.orderedInsert, List.range_succ, strategies, ht]
  · rw [hk]
    rfl

/-- C4 (corrected): in two-stage randomized mode (`reverse_order = true`,
requiring `top_n_percent > 0`), every index marked true in the returned
QueryMask belongs to the randomly drawn candidate pool of `k` indices, and
exactly `n_pixels_by_us` entries are true — *provided* every pool position
scores strictly better than the mask value in the strategy's top-k
direction (automatic for the `random` strategy, whose `torch.rand` scores
lie in [0, 1), but violable in general: see the counterexample) and
`n_pixels_by_us ≤ k`. -/
theorem C4_selected_within_pool (choice : List ℕ → ℕ → List ℕ) (args : Args) (h w : ℕ)
    (uc : List ℚ) (pool : List ℕ) (q : List Bool)
    (hrev : args.reverse_order = true) (htop : 0 < args.top_n_percent)
    (hlen : uc.length = h * w)
    (hpool : choice (List.range (h * w))
      (select_k args.top_n_percent args.n_pixels_by_us h w) = pool)
    (hnodup : pool.Nodup)
    (hplen : pool.length = select_k args.top_n_percent args.n_pixels_by_us h w)
    (hmemlt : ∀ i ∈ pool, i < h * w)
    (hbetter : ∀ i ∈ pool, valBefore (isLargest args.query_strategy) (uc.getD i 0)
      (maskValue args.query_strategy))
    (hnp : args.n_pixels_by_us ≤ pool.length)
    (hq : select_queries choice args h w uc = Except.ok q) :
    trueCount q = args.n_pixels_by_us ∧ ∀ i, q.getD i false = true → i ∈ pool := by
  have hcnt_mem : (List.range (h * w)).countP (fun i => decide (i ∈ pool)) = pool.length :=
    countP_range_mem (h * w) pool hnodup hmemlt
  have hkle : select_k args.top_n_percent args.n_pixels_by_us h w ≤ h * w := by
    rw [← hplen, ← hcnt_mem]
    calc (List.range (h * w)).countP _ ≤ (List.range (h * w)).length := List.countP_le_length _
      _ = h * w := List.length_range _
  have hnple : args.n_pixels_by_us ≤ h * w := le_trans hnp (hplen ▸ hkle)
  have heq := select_queries_reverse choice args h w uc hrev htop hkle hnple
  rw [hpool] at heq
  rw [heq] at hq
  cases hq
  have hlen2 : ((List.range (h * w)).map (fun i =>
      if i ∈ pool then uc.getD i 0 else maskValue args.query_strategy)).length = h * w := by
    simp
  have hgetD : ∀ i, i < h * w → ((List.range (h * w)).map (fun i =>
      if i ∈ pool then uc.getD i 0 else maskValue args.query_strategy)).getD i 0 =
        if i ∈ pool then uc.getD i 0 else maskValue args.query_strategy :=
    fun i hi => getD_map_range _ _ _ hi
  have hcount2 : args.n_pixels_by_us ≤
      (List.range ((List.range (h * w)).map (fun i =>
        if i ∈ pool then uc.getD i 0 else maskValue args.query_strategy)).length).countP
        (fun j => decide (valBefore (isLargest args.query_strategy)
          (((List.range (h * w)).map (fun i =>
            if i ∈ pool then uc.getD i 0 else maskValue args.query_strategy)).getD j 0)
          (maskValue args.query_strategy))) := by
    rw [hlen2]
    refine le_trans (le_trans hnp (le_of_eq hcnt_mem.symm)) (List.countP_mono_left ?_)
    intro j hj hpj
    simp only [decide_eq_true_eq] at hpj ⊢
    rw [hgetD j (List.mem_range.mp hj), if_pos hpj]
    exact hbetter j hpj
  have hall := topkIndices_valBefore_of_count _ args.n_pixels_by_us
    (isLargest args.query_strategy) (maskValue args.query_strategy) hcount2
  constructor
  · rw [trueCount_mkQuery _ _ (topkIndices_nodup _ _ _)
      (fun i hi => hlen2 ▸ topkIndices_lt _ _ _ i hi)]
    rw [topkIndices_length, hlen2]
    exact min_eq_left hnple
  · intro i hqi
    have hi : i < h * w := by
      by_contra hge
      push_neg at hge
      rw [mkQuery_getD_ge _ _ _ hge] at hqi
      exact Bool.false_ne_true hqi
    rw [mkQuery_getD_lt _ _ _ hi] at hqi
    simp only [decide_eq_true_eq] at hqi
    have hvb := hall i hqi
    by_contra hnot
    rw [hgetD i hi, if_neg hnot] at hvb
    exact valBefore_irrefl _ _ hvb

theorem C4_selected_within_pool_witness :
    trueCount [true, false, false, false] = 1 ∧
      ∀ i, ([true, false, false, false] : List Bool).getD i false = true →
        i ∈ ([0, 1] : List ℕ) :=
  C4_selected_within_pool (fun l n => l.take n)
    { query_strategy := "entropy", n_pixels_by_us := 1, top_n_percent := 1/2,
      reverse_order := true, use_mc_dropout := false, mc_n_steps := 1,
      ignore_index := 255, n_classes := 2 }
    2 2 [3, 2, 1, 1] [0, 1] [true, false, false, false] rfl (by norm_num) (by decide)
    (by
      have ht : Int.toNat 2 = 2 := rfl
      norm_num [select_k, pyInt, ht]
      decide)
    (by decide) (by
      have ht : Int.toNat 2 = 2 := rfl
      norm_num [select_k, pyInt, ht])
    (by decide) (by decide) (by
      have ht : Int.toNat 2 = 2 := rfl
      norm_num [select_k, pyInt, ht])
    (by
      have ht : Int.toNat 2 = 2 := rfl
      norm_num [select_queries, select_k, pyInt, topkIndices, topkRel, isLargest, maskValue,
        mkQuery, List.insertionSort, List.orderedInsert, List.range_succ, strategies, ht])

/-- For each of the four recognized strategy names the sampler dispatch
succeeds with an uncertainty map (shared helper). -/
lemma sampler_call_recognized (objectCall : String → Except String SamplerResult)
    (log : ℚ → ℚ) (rand : List ℚ) (s : String)
    (prob : List (List ℚ)) (hs : s ∈ strategies) :
    ∃ m, sampler_call objectCall log rand s prob = Except.ok (SamplerResult.map m) := by
  simp only [strategies, List.mem_cons, List.mem_singleton, List.not_mem_nil, or_false] at hs
  rcases hs with rfl | rfl | rfl | rfl
  · exact ⟨_, rfl⟩
  · exact ⟨_, rfl⟩
  · exact ⟨_, rfl⟩
  · exact ⟨_, rfl⟩

/-- C8, counterexample: the strategy name `"_init__"` is not one of the four
recognized names, yet neither construction nor the first invocation fails:
`getattr(self, "_" + "_init__")` resolves the class method `__init__`, which
runs on the probability tensor and returns `None` without raising any
error. -/
theorem C8_counterexample :
    "_init__" ∉ strategies ∧
      sampler_call (fun a => Except.ok (SamplerResult.pyObject a)) (fun _ => 0) [] "_init__" []
        = Except.ok SamplerResult.pyNone := by
  exact ⟨by decide, by rfl⟩

/-- C8 (corrected): construction of the sampler never validates the name,
and the first invocation dispatches through
`getattr(self, "_" + query_strategy)`.  For the four recognized names it
returns an uncertainty map without error.  For a name whose
underscore-prefixed form is *not* an attribute of the sampler instance it
fails with an `AttributeError` (the `UnsupportedStrategy` condition).  But
a name colliding with an existing attribute raises no `AttributeError` at
all: `"_init__"` resolves `__init__` and returns `None` without error (the
counterexample), `"_call__"` resolves `__call__` and self-recurses into a
`RecursionError`, and a name resolving an attribute inherited from
`object` behaves as that attribute does when called (`"_eq__"` returns
`NotImplemented`, `"_class__"` constructs a new sampler, `"_sizeof__"`
raises `TypeError` — abstracted here as `objectCall`). -/
theorem C8_strategy_dispatch (objectCall : String → Except String SamplerResult)
    (log : ℚ → ℚ) (rand : List ℚ) (s : String) (prob : List (List ℚ)) :
    (s ∈ strategies →
      ∃ m, sampler_call objectCall log rand s prob = Except.ok (SamplerResult.map m)) ∧
      (("_" ++ s) ∉ samplerAttrs →
        sampler_call objectCall log rand s prob =
          Except.error ("AttributeError: UncertaintySampler object has no attribute _" ++ s)) := by
  constructor
  · exact fun hs => sampler_call_recognized objectCall log rand s prob hs
  · intro hs
    have e1 : ¬ s = "entropy" := by
      intro h
      subst h
      exact hs (by decide)
    have e2 : ¬ s = "least_confidence" := by
      intro h
      subst h
      exact hs (by decide)
    have e3 : ¬ s = "margin_sampling" := by
      intro h
      subst h
      exact hs (by decide)
    have e4 : ¬ s = "random" := by
      intro h
      subst h
      exact hs (by decide)
    have h1 : ¬ s = "_init__" := by
      intro h
      subst h
      exact hs (by decide)
    have h2 : ¬ s = "_call__" := by
      intro h
      subst h
      exact hs (by decide)
    unfold sampler_call
    rw [if_neg e1, if_neg e2, if_neg e3, if_neg e4, if_neg h1, if_neg h2, if_neg hs]

theorem C8_strategy_dispatch_witness :
    (∃ m, sampler_call (fun a => Except.ok (SamplerResult.pyObject a)) (fun _ => 0) [] "entropy" []
        = Except.ok (SamplerResult.map m)) ∧
      sampler_call (fun a => Except.ok (SamplerResult.pyObject a)) (fun _ => 0) [] "foo" [] =
        Except.error ("AttributeError: UncertaintySampler object has no attribute _" ++ "foo") :=
  ⟨(C8_strategy_dispatch (fun a => Except.ok (SamplerResult.pyObject a))
      (fun _ => 0) [] "entropy" []).1 (by decide),
    (C8_strategy_dispatch (fun a => Except.ok (SamplerResult.pyObject a))
      (fun _ => 0) [] "foo" []).2 (by decide)⟩

lemma pyName_pyAssign_eq (env : PyEnv) (n : String) (v : PyVal) :
    pyName (pyAssign env n v) n = Except.ok v := by
  unfold pyName pyAssign
  rw [List.find?_cons_of_pos _ (by simp)]

lemma pyName_pyAssign_ne (env : PyEnv) (n : String) (v : PyVal) (x : String)
    (hne : ¬ n = x) : pyName (pyAssign env n v) x = pyName env x := by
  unfold pyName pyAssign
  rw [List.find?_cons_of_neg _ (by simp [hne])]

lemma pyName_not_found (env : PyEnv) (x : String) (h : ∀ p ∈ env, ¬ p.1 = x) :
    pyName env x = Except.error ("NameError: name " ++ x ++ " is not defined") := by
  unfold pyName
  rw [List.find?_eq_none.mpr (by
    intro p hp
    simp [h p hp])]

/-- Value of one MC-dropout loop iteration when the sampler succeeds and the
environment holds `uc_map` and `prob`. -/
lemma mc_step_eq (objectCall : String → Except String SamplerResult)
    (log : ℚ → ℚ) (s : String) (sp : ℕ → List (List ℚ))
    (srand : ℕ → List ℚ) (env : PyEnv) (step : ℕ) (m : List ℚ) (u pr : PyVal)
    (hm : sampler_call objectCall log (srand step) s (sp step) = Except.ok (SamplerResult.map m))
    (hu : pyName env ("uc_map") = Except.ok u)
    (hpr : pyName env ("prob") = Except.ok pr) :
    mc_step objectCall log s sp srand env step = Except.ok
      (pyAssign (pyAssign (pyAssign (pyAssign (pyAssign env ("step") (PyVal.int step))
          ("prob_") (PyVal.mat (sp step))) ("uc_map_") (PyVal.vec m)) ("uc_map")
          (addUc u m)) ("prob") (addProb pr (sp step))) := by
  have h4 : pyName (pyAssign (pyAssign (pyAssign env ("step") (PyVal.int step))
      ("prob_") (PyVal.mat (sp step))) ("uc_map_") (PyVal.vec m)) ("uc_map") = Except.ok u := by
    rw [pyName_pyAssign_ne _ _ _ _ (by decide), pyName_pyAssign_ne _ _ _ _ (by decide),
      pyName_pyAssign_ne _ _ _ _ (by decide)]
    exact hu
  have h5 : pyName (pyAssign (pyAssign (pyAssign (pyAssign env ("step") (PyVal.int step))
      ("prob_") (PyVal.mat (sp step))) ("uc_map_") (PyVal.vec m)) ("uc_map")
      (addUc u m)) ("prob") = Except.ok pr := by
    rw [pyName_pyAssign_ne _ _ _ _ (by decide), pyName_pyAssign_ne _ _ _ _ (by decide),
      pyName_pyAssign_ne _ _ _ _ (by decide), pyName_pyAssign_ne _ _ _ _ (by decide)]
    exact hpr
  unfold mc_step
  simp only [hm, h4, h5]

/-- The MC-dropout loop succeeds for a recognized strategy, and it never
assigns the name `up_map`. -/
lemma mc_fold_ok (objectCall : String → Except String SamplerResult)
    (log : ℚ → ℚ) (s : String) (sp : ℕ → List (List ℚ))
    (srand : ℕ → List ℚ) (hs : s ∈ strategies) :
    ∀ (l : List ℕ) (env : PyEnv),
      (∃ u, pyName env ("uc_map") = Except.ok u) →
      (∃ pr, pyName env ("prob") = Except.ok pr) →
      (∀ p ∈ env, ¬ p.1 = "up_map") →
      ∃ env2, l.foldlM (mc_step objectCall log s sp srand) env = Except.ok env2 ∧
        (∀ p ∈ env2, ¬ p.1 = "up_map") := by
  intro l
  induction l with
  | nil =>
    intro env h1 h2 h3
    exact ⟨env, rfl, h3⟩
  | cons a t ih =>
    intro env h1 h2 h3
    obtain ⟨u, hu⟩ := h1
    obtain ⟨pr, hpr⟩ := h2
    obtain ⟨m, hm⟩ := sampler_call_recognized objectCall log (srand a) s (sp a) hs
    have hstep := mc_step_eq objectCall log s sp srand env a m u pr hm hu hpr
    rw [List.foldlM_cons, hstep]
    have hE2 : ∃ env2,
        t.foldlM (mc_step objectCall log s sp srand)
          (pyAssign (pyAssign (pyAssign (pyAssign (pyAssign env ("step") (PyVal.int a))
              ("prob_") (PyVal.mat (sp a))) ("uc_map_") (PyVal.vec m)) ("uc_map")
              (addUc u m)) ("prob") (addProb pr (sp a)))
          = Except.ok env2 ∧ (∀ p ∈ env2, ¬ p.1 = "up_map") := by
      refine ih _ ?_ ?_ ?_
      · refine ⟨addUc u m, ?_⟩
        rw [pyName_pyAssign_ne _ _ _ _ (by decide), pyName_pyAssign_eq]
      · exact ⟨_, pyName_pyAssign_eq _ _ _⟩
      · intro p hp
        simp only [pyAssign, List.mem_cons] at hp
        rcases hp with rfl | rfl | rfl | rfl | rfl | hp
        · exact (by decide : ¬ ("prob" : String) = "up_map")
        · exact (by decide : ¬ ("uc_map" : String) = "up_map")
        · exact (by decide : ¬ ("uc_map_" : String) = "up_map")
        · exact (by decide : ¬ ("prob_" : String) = "up_map")
        · exact (by decide : ¬ ("step" : String) = "up_map")
        · exact h3 p hp
    obtain ⟨env2, hfold, hnup⟩ := hE2
    exact ⟨env2, hfold, hnup⟩

/-- After a loop that never assigned `up_map`, line 98 raises `NameError`. -/
lemma mc_finish_name_error (mc_n_steps : ℕ) (env : PyEnv)
    (h : ∀ p ∈ env, ¬ p.1 = "up_map") :
    mc_finish mc_n_steps env =
      Except.error ("NameError: name " ++ "up_map" ++ " is not defined") := by
  unfold mc_finish
  rw [pyName_not_found env _ h]

/-- C1 (code_bug): with Monte-Carlo dropout enabled the per-round
orchestration can never return the per-step average of the uncertainty maps:
for every recognized strategy, step count and inputs, the branch raises
`NameError` at line 98 (`up_map = up_map / self.mc_n_steps` reads a name
that is never assigned — the accumulator is spelled `uc_map` and is never
divided), so no uncertainty map is handed to masking and selection at
all. -/
theorem C1_mc_dropout_name_error (objectCall : String → Except String SamplerResult)
    (log : ℚ → ℚ) (s : String)
    (mc_n_steps n_classes h w : ℕ) (sp : ℕ → List (List ℚ)) (srand : ℕ → List ℚ)
    (hs : s ∈ strategies) :
    mc_branch objectCall log s mc_n_steps n_classes h w sp srand =
      Except.error ("NameError: name " ++ "up_map" ++ " is not defined") := by
  obtain ⟨env2, hfold, hnup⟩ := mc_fold_ok objectCall log s sp srand hs (List.range mc_n_steps)
    (pyAssign (pyAssign [] ("uc_map") (PyVal.vec (List.replicate (h * w) 0))) ("prob")
      (PyVal.mat (List.replicate (h * w) (List.replicate n_classes 0))))
    (by
      refine ⟨PyVal.vec (List.replicate (h * w) 0), ?_⟩
      rw [pyName_pyAssign_ne _ _ _ _ (by decide), pyName_pyAssign_eq])
    ⟨_, pyName_pyAssign_eq _ _ _⟩
    (by
      intro p hp
      simp only [pyAssign, List.mem_cons, List.not_mem_nil, or_false] at hp
      rcases hp with rfl | rfl
      · exact (by decide : ¬ ("prob" : String) = "up_map")
      · exact (by decide : ¬ ("uc_map" : String) = "up_map"))
  simp only [mc_branch]
  rw [hfold]
  exact mc_finish_name_error mc_n_steps env2 hnup

theorem C1_mc_dropout_name_error_witness :
    "entropy" ∈ strategies ∧
      mc_branch (fun a => Except.ok (SamplerResult.pyObject a)) (fun _ => 0) "entropy" 2 1 1 1
          (fun _ => [[1]]) (fun _ => [0]) =
        Except.error ("NameError: name " ++ "up_map" ++ " is not defined") :=
  ⟨by decide,
    C1_mc_dropout_name_error (fun a => Except.ok (SamplerResult.pyObject a)) (fun _ => 0)
      "entropy" 2 1 1 1 (fun _ => [[1]]) (fun _ => [0]) (by decide)⟩

/-- C2, counterexample: a pool of one 2×2 image whose eligibility mask marks
*every* pixel ineligible (ground truth all class 0, not void).  The claim
says the round must fail with the assertion-style error; instead the run
returns successfully: the top-k operation still picks `n_pixels_by_us = 1`
pixel (an already-annotated one), `n_pixels = 1 > 0`, and the line-119
assertion — which only checks that the *list of query masks* is nonempty —
passes. -/
theorem C2_counterexample :
    query_selector_call (fun a => Except.ok (SamplerResult.pyObject a)) (fun _ => 0) (fun _ => 0)
      (fun l n => l.take n)
      { query_strategy := "entropy", n_pixels_by_us := 1, top_n_percent := 0,
        reverse_order := false, use_mc_dropout := false, mc_n_steps := 1,
        ignore_index := 255, n_classes := 2 }
      [{ h := 2, w := 2, y := [[0, 0], [0, 0]], mask := [[true, true], [true, true]],
         prob := [[1, 0], [1, 0], [1, 0], [1, 0]], randMap := [0, 0, 0, 0],
         mc_probs := fun _ => [], mc_rands := fun _ => [] }]
      = Except.ok ([[[true, false], [false, false]]], 1) := by
  rfl

/-- C2 (corrected): the assertion-style fatal error of the per-round run
(`assert len(list_queries) > 0, "no queries are chosen!"`, line 119) is
raised exactly when the pool yields no images, because one query mask is
appended unconditionally per image; marking every pixel of every image
ineligible does not trigger it — the top-k operation still selects
`n_pixels_by_us` (ineligible) pixels per image, so the total is positive
and the run succeeds (see the counterexample). -/
theorem C2_assert_only_on_empty_pool (objectCall : String → Except String SamplerResult)
    (log sqrt : ℚ → ℚ) (choice : List ℕ → ℕ → List ℕ) (args : Args) :
    query_selector_call objectCall log sqrt choice args [] =
      Except.error ("AssertionError: no queries are chosen!") := by
  rfl

lemma zip_filterMap_true_length (ys : List ℤ) :
    ∀ (bs : List Bool), ys.length = bs.length →
      ((ys.zip bs).filterMap (fun p => if p.2 then some p.1 else none)).length =
        bs.countP id := by
  induction ys with
  | nil =>
    intro bs h
    cases bs with
    | nil => rfl
    | cons b t => simp at h
  | cons a t ih =>
    intro bs h
    cases bs with
    | nil => simp at h
    | cons b bs =>
      cases b with
      | false =>
        have hih := ih bs (by simpa using h)
        simp [List.countP_cons, hih]
      | true =>
        have hih := ih bs (by simpa using h)
        simp [List.countP_cons, hih]

lemma selectedLabels_length (query : List (List Bool)) (y : List (List ℤ))
    (h : y.flatten.length = query.flatten.length) :
    (selectedLabels query y).length = trueCount2 query :=
  zip_filterMap_true_length _ _ h

lemma sum_set_incr : ∀ (cnt : List ℕ) (i : ℕ), i < cnt.length →
    (cnt.set i (cnt.getD i 0 + 1)).sum = cnt.sum + 1 := by
  intro cnt
  induction cnt with
  | nil =>
    intro i h
    simp at h
  | cons a t ih =>
    intro i h
    cases i with
    | zero =>
      simp only [List.getD_cons_zero, List.set_cons_zero, List.sum_cons]
      omega
    | succ j =>
      simp only [List.getD_cons_succ, List.set_cons_succ, List.sum_cons]
      have := ih j (by simpa using h)
      omega

lemma dictIncr_ok (cnt : List ℕ) (l : ℤ) (cnt2 : List ℕ)
    (h : dictIncr cnt l = Except.ok cnt2) :
    cnt2.sum = cnt.sum + 1 ∧ cnt2.length = cnt.length := by
  unfold dictIncr at h
  by_cases hc : 0 ≤ l ∧ l.toNat < cnt.length
  · rw [if_pos hc] at h
    cases h
    exact ⟨sum_set_incr cnt l.toNat hc.2, by simp⟩
  · rw [if_neg hc] at h
    cases h

lemma count_labels_fold (labels : List ℤ) : ∀ (cnt cnt2 : List ℕ),
    labels.foldlM dictIncr cnt = Except.ok cnt2 →
      cnt2.sum = cnt.sum + labels.length ∧ cnt2.length = cnt.length := by
  induction labels with
  | nil =>
    intro cnt cnt2 h
    have h2 : cnt = cnt2 := Except.ok.inj h
    subst h2
    simp
  | cons a t ih =>
    intro cnt cnt2 h
    rw [List.foldlM_cons] at h
    cases hd : dictIncr cnt a with
    | error e =>
      rw [hd] at h
      exact Except.noConfusion h
    | ok c1 =>
      rw [hd] at h
      have h2 : t.foldlM dictIncr c1 = Except.ok cnt2 := h
      obtain ⟨hs1, hl1⟩ := dictIncr_ok cnt a c1 hd
      obtain ⟨hs2, hl2⟩ := ih c1 cnt2 h2
      constructor
      · rw [hs2, hs1]
        simp only [List.length_cons]
        omega
      · rw [hl2, hl1]

lemma qstats_update_ok (log sqrt : ℚ → ℚ) (st : QStats) (q : List (List Bool))
    (y : List (List ℤ)) (prob : List (List ℚ)) (st2 : QStats)
    (h : qstats_update log sqrt st q y prob = Except.ok st2)
    (hsh : y.flatten.length = q.flatten.length) :
    st2.dict_label_cnt.sum = st.dict_label_cnt.sum + trueCount2 q ∧
      st2.dict_label_cnt.length = st.dict_label_cnt.length := by
  unfold qstats_update count_labels at h
  cases hc : (selectedLabels q y).foldlM dictIncr st.dict_label_cnt with
  | error e =>
    rw [hc] at h
    exact Except.noConfusion h
  | ok cnt2 =>
    rw [hc] at h
    have h2 : Except.ok (ε := String)
        ({ dict_label_cnt := cnt2
           list_entropy := st.list_entropy ++ get_entropy log q prob
           list_n_unique_labels := st.list_n_unique_labels ++ [n_unique_labels q y]
           list_spatial_coverage :=
             st.list_spatial_coverage ++ [spatial_coverage sqrt q] } : QStats) =
        Except.ok st2 := h
    cases h2
    obtain ⟨hs, hl⟩ := count_labels_fold _ _ _ hc
    rw [selectedLabels_length q y hsh] at hs
    exact ⟨hs, hl⟩

lemma qstats_fold_sum (log sqrt : ℚ → ℚ)
    (rounds : List (List (List Bool) × List (List ℤ) × List (List ℚ))) :
    ∀ (st0 st : QStats),
      (∀ r ∈ rounds, r.2.1.flatten.length = r.1.flatten.length) →
      rounds.foldlM (fun st r => qstats_update log sqrt st r.1 r.2.1 r.2.2) st0 =
        Except.ok st →
      st.dict_label_cnt.sum = st0.dict_label_cnt.sum +
        (rounds.map (fun r => trueCount2 r.1)).sum := by
  induction rounds with
  | nil =>
    intro st0 st hsh h
    have h2 : st0 = st := Except.ok.inj h
    subst h2
    simp
  | cons r t ih =>
    intro st0 st hsh h
    rw [List.foldlM_cons] at h
    cases hu : qstats_update log sqrt st0 r.1 r.2.1 r.2.2 with
    | error e =>
      rw [hu] at h
      exact Except.noConfusion h
    | ok st1 =>
      rw [hu] at h
      have h2 : t.foldlM (fun st r => qstats_update log sqrt st r.1 r.2.1 r.2.2) st1 =
          Except.ok st := h
      obtain ⟨hs1, _⟩ := qstats_update_ok log sqrt st0 r.1 r.2.1 r.2.2 st1 hu
        (hsh r (List.mem_cons_self r t))
      have hs2 := ih st1 st (fun x hx => hsh x (List.mem_cons_of_mem r hx)) h2
      rw [hs2, hs1]
      simp only [List.map_cons, List.sum_cons]
      omega

/-- C7 (confirmed): after any sequence of `QueryStats.update` calls in a
round whose selected pixels carry in-range class ids (expressed by the run
succeeding: an out-of-range id would abort with `KeyError`, see C10), the
label histogram sums, across all classes, to the total number of true
QueryMask entries across all processed images. -/
theorem C7_histogram_sums_to_selected (log sqrt : ℚ → ℚ) (n_classes : ℕ)
    (rounds : List (List (List Bool) × List (List ℤ) × List (List ℚ))) (st : QStats)
    (hsh : ∀ r ∈ rounds, r.2.1.flatten.length = r.1.flatten.length)
    (hrun : qstats_run log sqrt n_classes rounds = Except.ok st) :
    st.dict_label_cnt.sum = (rounds.map (fun r => trueCount2 r.1)).sum := by
  have := qstats_fold_sum log sqrt rounds (qstats_init n_classes) st hsh hrun
  simpa [qstats_init] using this

theorem C7_histogram_sums_to_selected_witness :
    ∃ st, qstats_run (fun _ => 0) (fun _ => 0) 2
        [([[true, true]], [[0, 1]], [[1, 0], [0, 1]]),
         ([[true, false]], [[1, 1]], [[0, 1], [0, 1]])] = Except.ok st ∧
      st.dict_label_cnt.sum =
        ([(([[true, true]], [[0, 1]], [[1, 0], [0, 1]]) :
            List (List Bool) × List (List ℤ) × List (List ℚ)),
          ([[true, false]], [[1, 1]], [[0, 1], [0, 1]])].map
            (fun r => trueCount2 r.1)).sum := by
  refine ⟨_, rfl, ?_⟩
  exact C7_histogram_sums_to_selected (fun _ => 0) (fun _ => 0) 2
    [([[true, true]], [[0, 1]], [[1, 0], [0, 1]]),
     ([[true, false]], [[1, 1]], [[0, 1], [0, 1]])] _ (by decide) rfl

lemma count_labels_err (labels : List ℤ) : ∀ (cnt : List ℕ),
    (∃ l ∈ labels, ¬ (0 ≤ l ∧ l.toNat < cnt.length)) →
      labels.foldlM dictIncr cnt = Except.error ("KeyError") := by
  induction labels with
  | nil =>
    intro cnt h
    obtain ⟨l, hl, _⟩ := h
    simp at hl
  | cons a t ih =>
    intro cnt h
    obtain ⟨l, hl, hbad⟩ := h
    rw [List.foldlM_cons]
    by_cases hca : 0 ≤ a ∧ a.toNat < cnt.length
    · have hd : dictIncr cnt a = Except.ok (cnt.set a.toNat (cnt.getD a.toNat 0 + 1)) := by
        unfold dictIncr
        rw [if_pos hca]
      rw [hd]
      have hlt : l ∈ t := by
        rcases List.mem_cons.mp hl with rfl | hlt
        · exact absurd hca hbad
        · exact hlt
      have hbad2 : ¬ (0 ≤ l ∧ l.toNat < (cnt.set a.toNat (cnt.getD a.toNat 0 + 1)).length) := by
        simpa using hbad
      exact ih _ ⟨l, hlt, hbad2⟩
    · have hd : dictIncr cnt a = Except.error ("KeyError") := by
        unfold dictIncr
        rw [if_neg hca]
      rw [hd]
      rfl

/-- C10 (confirmed): if any selected pixel of the QueryMask passed to
`QueryStats.update` carries a ground-truth class id outside
`{0, ..., n_classes - 1}` (for example the void `ignore_index`, selectable
when the budget exceeds the eligible pixels), the label-count step raises
`KeyError` — the histogram holds only the keys `0 .. n_classes - 1` — and
the update aborts with that error. -/
theorem C10_out_of_range_label_key_error (log sqrt : ℚ → ℚ) (n_classes : ℕ)
    (st : QStats) (query : List (List Bool)) (y : List (List ℤ))
    (prob : List (List ℚ)) (l : ℤ)
    (hdict : st.dict_label_cnt.length = n_classes)
    (hmem : l ∈ selectedLabels query y)
    (hbad : l < 0 ∨ (n_classes : ℤ) ≤ l) :
    qstats_update log sqrt st query y prob = Except.error ("KeyError") := by
  unfold qstats_update count_labels
  rw [count_labels_err _ _ ⟨l, hmem, by
    rw [hdict]
    omega⟩]
  rfl

theorem C10_out_of_range_label_key_error_witness :
    qstats_update (fun _ => 0) (fun _ => 0) (qstats_init 2) [[true]] [[255]] [[1, 0]] =
      Except.error ("KeyError") :=
  C10_out_of_range_label_key_error (fun _ => 0) (fun _ => 0) 2 (qstats_init 2)
    [[true]] [[255]] [[1, 0]] 255 (by decide) (by decide) (by decide)

lemma enumFrom_row_length (r : ℕ) : ∀ (n : ℕ) (row : List Bool),
    ((List.enumFrom n row).filterMap
      (fun cb => if cb.2 then some (r, cb.1) else none)).length = row.countP id := by
  intro n row
  induction row generalizing n with
  | nil => rfl
  | cons b t ih =>
    rw [List.enumFrom_cons]
    cases b with
    | false => simp [List.filterMap_cons, List.countP_cons, ih (n + 1)]
    | true => simp [List.filterMap_cons, List.countP_cons, ih (n + 1)]

lemma whereCoords_length (q : List (List Bool)) : (whereCoords q).length = trueCount2 q := by
  unfold whereCoords trueCount2 trueCount
  rw [List.length_flatten, List.map_map, List.countP_flatten]
  have hpt : ∀ rc ∈ q.enum,
      (List.length ∘ fun rc : ℕ × List Bool =>
        rc.2.enum.filterMap (fun cb => if cb.2 then some (rc.1, cb.1) else none)) rc =
      (fun rc : ℕ × List Bool => rc.2.countP id) rc :=
    fun rc _ => enumFrom_row_length rc.1 0 rc.2
  rw [List.map_congr_left hpt]
  have h2 : q.enum.map (fun rc : ℕ × List Bool => rc.2.countP id) =
      q.map (List.countP id) := by
    calc q.enum.map (fun rc : ℕ × List Bool => rc.2.countP id)
        = (q.enum.map Prod.snd).map (List.countP id) := by
          rw [List.map_map]
          rfl
      _ = q.map (List.countP id) := by rw [List.enum_map_snd]
  rw [h2]

lemma countP_enum_fst_eq (cs : List (ℕ × ℕ)) (i : ℕ) (hi : i < cs.length) :
    cs.enum.countP (fun jb => decide (i = jb.1)) = 1 := by
  have h1 := List.countP_map (fun x => decide (i = x)) Prod.fst cs.enum
  rw [List.enum_map_fst] at h1
  have h2 : (List.range cs.length).countP (fun x => decide (i = x)) = 1 := by
    have h3 := countP_range_mem cs.length [i] (by simp) (by simpa using hi)
    simp only [List.length_singleton] at h3
    rw [← h3]
    refine List.countP_congr ?_
    intro x hx
    simp [eq_comm]
  rw [← h2, h1]
  rfl

lemma offDiag_inner_length (sqrt : ℚ → ℚ) (cs : List (ℕ × ℕ)) (ia : ℕ × (ℕ × ℕ))
    (hi : ia.1 < cs.length) :
    (cs.enum.filterMap (fun jb =>
      if ia.1 = jb.1 then none else some (pdist sqrt ia.2 jb.2))).length =
      cs.length - 1 := by
  rw [List.length_filterMap_eq_countP]
  have hc : cs.enum.countP (fun jb =>
      ((if ia.1 = jb.1 then none else some (pdist sqrt ia.2 jb.2)) : Option ℚ).isSome) =
      cs.enum.countP (fun jb => ¬ decide (ia.1 = jb.1)) := by
    refine List.countP_congr ?_
    intro x hx
    by_cases hxx : ia.1 = x.1 <;> simp [hxx]
  rw [hc]
  have htot := List.length_eq_countP_add_countP (fun jb : ℕ × (ℕ × ℕ) =>
    decide (ia.1 = jb.1)) (l := cs.enum)
  have hone := countP_enum_fst_eq cs ia.1 hi
  have hlen : cs.enum.length = cs.length := List.enum_length
  omega

lemma filterMap_if_sum (sqrt : ℚ → ℚ) (ia : ℕ × (ℕ × ℕ)) :
    ∀ (l : List (ℕ × (ℕ × ℕ))),
      (l.filterMap (fun jb =>
        if ia.1 = jb.1 then none else some (pdist sqrt ia.2 jb.2))).sum =
      (l.map (fun jb => if ia.1 = jb.1 then 0 else pdist sqrt ia.2 jb.2)).sum := by
  intro l
  induction l with
  | nil => rfl
  | cons a t ih =>
    by_cases hc : ia.1 = a.1
    · simp only [List.filterMap_cons, if_pos hc, List.map_cons, List.sum_cons]
      rw [ih, zero_add]
    · simp only [List.filterMap_cons, if_neg hc, List.map_cons, List.sum_cons]
      rw [ih]

lemma mem_enum_fst_lt (cs : List (ℕ × ℕ)) (ia : ℕ × (ℕ × ℕ)) (h : ia ∈ cs.enum) :
    ia.1 < cs.length := by
  have h1 : ia.1 ∈ cs.enum.map Prod.fst := List.mem_map_of_mem Prod.fst h
  rw [List.enum_map_fst] at h1
  exact List.mem_range.mp h1

lemma offDiag_length (sqrt : ℚ → ℚ) (cs : List (ℕ × ℕ)) :
    (offDiag sqrt cs).length = cs.length * (cs.length - 1) := by
  unfold offDiag
  rw [List.length_flatten, List.map_map]
  have hpt : ∀ ia ∈ cs.enum,
      (List.length ∘ fun ia : ℕ × (ℕ × ℕ) => cs.enum.filterMap (fun jb =>
        if ia.1 = jb.1 then none else some (pdist sqrt ia.2 jb.2))) ia =
      (fun _ : ℕ × (ℕ × ℕ) => cs.length - 1) ia :=
    fun ia hia => offDiag_inner_length sqrt cs ia (mem_enum_fst_lt cs ia hia)
  rw [List.map_congr_left hpt, List.map_const']
  simp [List.sum_replicate, List.enum_length, smul_eq_mul]

lemma offDiag_sum (sqrt : ℚ → ℚ) (cs : List (ℕ × ℕ)) :
    (offDiag sqrt cs).sum = (cs.enum.map (fun ia =>
      (cs.enum.map (fun jb => if ia.1 = jb.1 then 0 else pdist sqrt ia.2 jb.2)).sum)).sum := by
  unfold offDiag
  rw [List.sum_flatten, List.map_map]
  refine congrArg List.sum (List.map_congr_left ?_)
  intro ia _
  exact filterMap_if_sum sqrt ia cs.enum

/-- C9 (confirmed): for a QueryMask with fewer than 2 true pixels the
spatial-coverage statistic of `QueryStats.update` is not-a-number (`none`)
rather than an error — for 0 pixels the reshape raises a `ValueError` the
code catches into NaN, for 1 pixel the mean of the empty off-diagonal slice
is NaN — and that NaN poisons the round average
(`np.mean(list_spatial_coverage)`); for 2 or more selected pixels the
statistic is the mean pairwise Euclidean distance among the selected pixel
coordinates. -/
theorem C9_spatial_coverage (sqrt : ℚ → ℚ) (query : List (List Bool))
    (lst : List (Option ℚ)) :
    (trueCount2 query < 2 →
      spatial_coverage sqrt query = none ∧
        (spatial_coverage sqrt query ∈ lst → np_mean_nan lst = none)) ∧
    (2 ≤ trueCount2 query →
      spatial_coverage sqrt query = some (meanPairwiseDist sqrt (whereCoords query))) := by
  have hwl : (whereCoords query).length = trueCount2 query := whereCoords_length query
  constructor
  · intro h2
    have hcov : spatial_coverage sqrt query = none := by
      have hcases : (whereCoords query).length = 0 ∨ (whereCoords query).length = 1 := by
        omega
      rcases hcases with h0 | h1
      · unfold spatial_coverage
        rw [if_pos h0]
      · obtain ⟨c, hc⟩ := List.length_eq_one.mp h1
        unfold spatial_coverage
        rw [hc]
        have hofd : offDiag sqrt [c] = [] := rfl
        simp [np_mean, hofd]
    refine ⟨hcov, fun hmem => ?_⟩
    unfold np_mean_nan
    rw [if_pos]
    rw [hcov] at hmem
    exact List.any_eq_true.mpr ⟨none, hmem, rfl⟩
  · intro h2
    have hne : ¬ (whereCoords query).length = 0 := by omega
    unfold spatial_coverage np_mean
    rw [if_neg hne]
    have hlen := offDiag_length sqrt (whereCoords query)
    rw [if_neg (by
      rw [hlen]
      have : 2 ≤ (whereCoords query).length := by omega
      have h3 : 1 ≤ (whereCoords query).length - 1 := by omega
      exact Nat.mul_ne_zero (by omega) (by omega))]
    unfold meanPairwiseDist
    rw [offDiag_sum, hlen]

theorem C9_spatial_coverage_witness :
    spatial_coverage (fun q => q) [[true, false]] = none ∧
      np_mean_nan [spatial_coverage (fun q => q) [[true, false]]] = none :=
  ⟨((C9_spatial_coverage (fun q => q) [[true, false]]
      [spatial_coverage (fun q => q) [[true, false]]]).1 (by decide)).1,
    ((C9_spatial_coverage (fun q => q) [[true, false]]
      [spatial_coverage (fun q => q) [[true, false]]]).1 (by decide)).2
      (List.mem_singleton.mpr rfl)⟩

end PixelPick
